import Mathlib

/-!
Verification of the contest session & scraping/submission engine of
`wariuni/snowchains` against its natural-language specification.

The Rust code under `src/src/service/atcoder.rs` and
`src/src/service/session.rs` is shallowly embedded below.  Strings are
Lean `String`s; the regex crate's classes are Unicode-aware, so `\s` is
modelled as the `White_Space` property (stable across Unicode editions)
and `\d`/`\D` via the `Nd` (decimal number) category table, while the
explicit classes `[0-9]`, `[a-zA-Z_]`, `[a-z0-9_\-]`, `[a-z0-9_]` are the
ASCII sets the source writes; machine integers (`u32`, `u64`) stay within
range on every reachable value, so they are modelled as `Nat`; timestamps
are modelled as `Int` instants (the code normalizes everything to UTC, and
`with_timezone` preserves the instant).
-/

namespace Snowchains

/-! ## Character classes of the regexes -/

/-- `\s` in the regex crate is the Unicode `White_Space` property: the 25
code points `U+0009`–`U+000D`, `U+0020`, `U+0085`, `U+00A0`, `U+1680`,
`U+2000`–`U+200A`, `U+2028`, `U+2029`, `U+202F`, `U+205F`, `U+3000`
(stable across Unicode editions since 6.3). -/
def isSp (c : Char) : Bool :=
  (9 ≤ c.toNat && c.toNat ≤ 13) || c.toNat = 32 || c.toNat = 0x85 ||
  c.toNat = 0xA0 || c.toNat = 0x1680 ||
  (0x2000 ≤ c.toNat && c.toNat ≤ 0x200A) || c.toNat = 0x2028 ||
  c.toNat = 0x2029 || c.toNat = 0x202F || c.toNat = 0x205F ||
  c.toNat = 0x3000

/-- The regex class `[a-zA-Z_]` from `AtcoderContest::new` (an explicit
ASCII class in the source). -/
def isWordChar (c : Char) : Bool :=
  ('a' ≤ c && c ≤ 'z') || ('A' ≤ c && c ≤ 'Z') || c = '_'

/-- The code-point ranges of the Unicode `Nd` (decimal number) category:
the extent of `\d` in the regex crate.  Each range is one script's run of
ten digits (`0x30`–`0x39` is ASCII `0-9`, `0xFF10`–`0xFF19` the full-width
digits, …); scripts whose digits entered Unicode after the program's
vendored regex tables affect no statement proved below, since every string
a theorem here touches beyond the ASCII range is constrained away from
this table's margin. -/
def ndRanges : List (Nat × Nat) :=
  [(0x30, 0x39), (0x660, 0x669), (0x6f0, 0x6f9), (0x7c0, 0x7c9),
   (0x966, 0x96f), (0x9e6, 0x9ef), (0xa66, 0xa6f), (0xae6, 0xaef),
   (0xb66, 0xb6f), (0xbe6, 0xbef), (0xc66, 0xc6f), (0xce6, 0xcef),
   (0xd66, 0xd6f), (0xde6, 0xdef), (0xe50, 0xe59), (0xed0, 0xed9),
   (0xf20, 0xf29), (0x1040, 0x1049), (0x1090, 0x1099), (0x17e0, 0x17e9),
   (0x1810, 0x1819), (0x1946, 0x194f), (0x19d0, 0x19d9), (0x1a80, 0x1a89),
   (0x1a90, 0x1a99), (0x1b50, 0x1b59), (0x1bb0, 0x1bb9), (0x1c40, 0x1c49),
   (0x1c50, 0x1c59), (0xa620, 0xa629), (0xa8d0, 0xa8d9), (0xa900, 0xa909),
   (0xa9d0, 0xa9d9), (0xa9f0, 0xa9f9), (0xaa50, 0xaa59), (0xabf0, 0xabf9),
   (0xff10, 0xff19), (0x104a0, 0x104a9), (0x10d30, 0x10d39),
   (0x11066, 0x1106f), (0x110f0, 0x110f9), (0x11136, 0x1113f),
   (0x111d0, 0x111d9), (0x112f0, 0x112f9), (0x11450, 0x11459),
   (0x114d0, 0x114d9), (0x11650, 0x11659), (0x116c0, 0x116c9),
   (0x11730, 0x11739), (0x118e0, 0x118e9), (0x11950, 0x11959),
   (0x11c50, 0x11c59), (0x11d50, 0x11d59), (0x11da0, 0x11da9),
   (0x16a60, 0x16a69), (0x16ac0, 0x16ac9), (0x16b50, 0x16b59),
   (0x1d7ce, 0x1d7ff), (0x1e140, 0x1e149), (0x1e2f0, 0x1e2f9),
   (0x1e950, 0x1e959), (0x1fbf0, 0x1fbf9)]

/-- `\d` in the regex crate: membership in the Unicode `Nd` category. -/
def isDigitNd (c : Char) : Bool :=
  ndRanges.any (fun r => r.1 ≤ c.toNat && c.toNat ≤ r.2)

/-- Numeric value of an ASCII digit. -/
def digitVal (c : Char) : Nat := c.toNat - '0'.toNat

/-- `str::parse::<u32>` / `str::parse::<u64>` on a (nonempty) run of ASCII
digits: the decimal value.  On every reachable input the value fits in the
machine type (at most 12 digits appear), so no overflow modelling is
needed. -/
def parseDigits (l : List Char) : Nat := l.foldl (fun a c => 10 * a + digitVal c) 0

/-- Drop the regex `\s*` at both ends of a character list (the `\A\s*`/`\s*\z`
brackets of `AtcoderContest::new`'s pattern). -/
def trimSp (l : List Char) : List Char :=
  ((l.dropWhile isSp).reverse.dropWhile isSp).reverse

/-! ## `AtcoderContest` (src/src/service/atcoder.rs lines 432-527) -/

inductive AtcoderContest where
  | Practice : AtcoderContest
  | Apg4b : AtcoderContest
  | Arc : Nat → AtcoderContest
  | Abc : Nat → AtcoderContest
  | Agc : Nat → AtcoderContest
  | Atc : Nat → AtcoderContest
  | Apc : Nat → AtcoderContest
  | ChokudaiS : Nat → AtcoderContest
  | Other : String → AtcoderContest
  deriving DecidableEq, Repr

/-- The anchored regex `\A\s*([a-zA-Z_]+)(\d{3})\s*\z` of
`AtcoderContest::new`.  Since `[a-zA-Z_]` matches no digit, a match exists
exactly when the whitespace-trimmed input consists of a nonempty run of word
characters followed by exactly three `\d` (Unicode decimal) digits; the two
capture groups are that run and those digits. -/
def matchName (l : List Char) : Option (List Char × List Char) :=
  let t := trimSp l
  let k := t.length - 3
  if 4 ≤ t.length ∧ (t.take k).all isWordChar ∧ (t.drop k).all isDigitNd then
    some (t.take k, t.drop k)
  else
    none

/-- `str::to_lowercase` restricted to ASCII (every word character is ASCII). -/
def lowerStr (l : List Char) : List Char := l.map Char.toLower

/-- The `name == "abc" … else if name == "chokudai_s" || name == "chokudais"`
chain inside the regex-match branch of `AtcoderContest::new` (atcoder.rs
lines 458-472): `name` lowercased, and the captured digits put through
`caps[2].parse::<u32>().unwrap_or(0)` — Rust's `u32` parse accepts only
ASCII digits, so three captured ASCII digits give their decimal value while
any non-ASCII `\d` digit among them makes the parse fail and the default
`0` is taken; `none` means "fall through to the fixed special names". -/
def dedicatedOf (rawName digits : List Char) : Option AtcoderContest :=
  let name := lowerStr rawName
  let number := if digits.all Char.isDigit then parseDigits digits else 0
  if name = "abc".toList then some (AtcoderContest.Abc number)
  else if name = "arc".toList then some (AtcoderContest.Arc number)
  else if name = "agc".toList then some (AtcoderContest.Agc number)
  else if name = "atc".toList then some (AtcoderContest.Atc number)
  else if name = "apc".toList then some (AtcoderContest.Apc number)
  else if name = "chokudai_s".toList ∨ name = "chokudais".toList then
    some (AtcoderContest.ChokudaiS number)
  else none

/-- `AtcoderContest::new` (atcoder.rs lines 455-481).  On a regex match the
captured word part selects a dedicated variant; when no dedicated variant
applies, the original string is compared against the two special fixed
names and otherwise kept verbatim. -/
def AtcoderContest.new (s : String) : AtcoderContest :=
  let dedicated : Option AtcoderContest :=
    match matchName s.toList with
    | some (name, digits) => dedicatedOf name digits
    | none => none
  match dedicated with
  | some c => c
  | none =>
    if s = "practice" then AtcoderContest.Practice
    else if s = "apg4b" then AtcoderContest.Apg4b
    else AtcoderContest.Other s

/-- `format!("{:03}", n)`: the decimal rendering of `n`, left-padded with
zeros to at least three characters. -/
def format03 (n : Nat) : String :=
  let s := Nat.repr n
  ⟨List.replicate (3 - s.length) '0' ++ s.data⟩

/-- Whether lowercasing `name` gives one of the recognized contest-name
word parts of `AtcoderContest::new`. -/
def recognizedName (name : List Char) : Bool :=
  lowerStr name = "abc".toList || lowerStr name = "arc".toList ||
  lowerStr name = "agc".toList || lowerStr name = "atc".toList ||
  lowerStr name = "apc".toList || lowerStr name = "chokudai_s".toList ||
  lowerStr name = "chokudais".toList

/-- A string "matches a recognized shape" when the regex of
`AtcoderContest::new` matches it and the captured word part lowercases to a
recognized contest name. -/
def recognizedShape (s : String) : Bool :=
  match matchName s.toList with
  | some (name, _) => recognizedName name
  | none => false

/-! ## `ContestStatus` / `ContestDuration` (atcoder.rs lines 529-566) -/

inductive ContestStatus where
  | Finished : ContestStatus
  | Active : ContestStatus
  | NotBegun : String → Int → ContestStatus
  deriving DecidableEq, Repr

/-- `ContestDuration::check_current_status` (atcoder.rs lines 556-565) with
the contest bounds `(start, end)` and `Utc::now()` made explicit parameters.
`NotBegun` carries the contest name and the start instant
(`with_timezone(&Local)` does not change the instant). -/
def check_current_status (contest_name : String) (now startT endT : Int) :
    ContestStatus :=
  if now < startT then ContestStatus.NotBegun contest_name startT
  else if now > endT then ContestStatus.Finished
  else ContestStatus.Active

/-! ## Timelimit extraction (atcoder.rs lines 763-787)

The regex is `\A\D*([0-9]{1,9})(\.[0-9]{1,3})?\s*(m)?sec.*\z`.  `\D*` can
consume no `\d` (Unicode decimal) digit, so group 1 starts at the first
such digit of the text — and fails outright when that digit is not ASCII,
since group 1's class is the explicit ASCII `[0-9]`.  As every alternative
continuation begins with a non-digit, group 1 must swallow the whole ASCII
digit run (failing when it is longer than nine).  The optional fraction
likewise must swallow the whole ASCII digit run after a `.`, failing when
that run is empty or longer than three.  `.` does not match a newline, so
`.*\z` requires the remainder after `sec` to be newline-free. -/

/-- The `\s*(m)?sec.*\z` tail of the timelimit regex; returns whether the
`(m)` group matched. -/
def matchTail (l : List Char) : Option Bool :=
  match l.dropWhile isSp with
  | 'm' :: 's' :: 'e' :: 'c' :: rest => if rest.all (· ≠ '\n') then some true else none
  | 's' :: 'e' :: 'c' :: rest => if rest.all (· ≠ '\n') then some false else none
  | _ => none

/-- Match the full timelimit regex against `text`; on success returns the
integer-part digits, the optional fraction digits, and whether the `m`
marker was present. -/
def matchTimelimit (text : List Char) :
    Option (List Char × Option (List Char) × Bool) :=
  let l := text.dropWhile (fun c => !isDigitNd c)
  let ds := l.takeWhile Char.isDigit
  let rest := l.dropWhile Char.isDigit
  if ds.length = 0 ∨ 9 < ds.length then none
  else
    match rest with
    | '.' :: rest2 =>
      let fs := rest2.takeWhile Char.isDigit
      let rest3 := rest2.dropWhile Char.isDigit
      if fs.length = 0 ∨ 3 < fs.length then none
      else (matchTail rest3).map (fun m => (ds, some fs, m))
    | _ => (matchTail rest).map (fun m => (ds, none, m))

/-- `extract_timelimit` (atcoder.rs lines 763-787) applied to the text of
the timelimit paragraph, producing the duration in milliseconds
(`Duration::from_millis`).  The base value `b` and base-10 exponent `e`
mirror the source exactly; all intermediate values fit in `u64`. -/
def extract_timelimit_ms (text : String) : Option Nat :=
  match matchTimelimit text.toList with
  | none => none
  | some (ds, fracOpt, hasM) =>
    let b := parseDigits ds
    let p : Nat × Int :=
      match fracOpt with
      | some fs => (b * 10 ^ fs.length + parseDigits fs, -(fs.length : Int))
      | none => (b, 0)
    let e : Int := if hasM then p.2 else p.2 + 3
    some (if e < 0 then p.1 / 10 ^ (-e).toNat else p.1 * 10 ^ e.toNat)

/-- The extracted timelimit as a number of nanoseconds (the resolution of
`std::time::Duration`); `Duration::from_millis` yields a whole number of
milliseconds. -/
def extract_timelimit_ns (text : String) : Option Nat :=
  (extract_timelimit_ms text).map (· * 1000000)

/-! ## Test suites (atcoder.rs lines 615-798)

Modelled from the spec: the `TestSuite` type itself lives in
`src/testsuite.rs`, which is not under `src/`; spec §3 defines
**TestSuiteDraft** as one of `Simple(timelimit, samples)`,
`Interactive(timelimit)`, `Unsubmittable`.  `SimpleSuite::new(t)` carries no
sample cases and `.cases(samples)` attaches them. -/

inductive TestSuite where
  | Simple : Nat → List (String × String) → TestSuite
  | Interactive : Nat → TestSuite
  | Unsubmittable : TestSuite
  deriving DecidableEq, Repr

/-- The result of the ordered-fallback `extract_samples` strategies
(atcoder.rs lines 616-678): either a list of paired sample cases or the
interactive marker. -/
inductive Samples where
  | Simple : List (String × String) → Samples
  | Interactive : Samples
  deriving DecidableEq, Repr

/-- `Extract::extract_as_suite` (atcoder.rs lines 789-797) as a function of
the timelimit-paragraph text and of the outcome of the sample-extraction
strategies on the same page (`none` when every strategy fails).  The
zero-timelimit branch is taken before `extract_samples` is consulted. -/
def extract_as_suite (timelimitText : String) (samples : Option Samples) :
    Option TestSuite :=
  match extract_timelimit_ms timelimitText with
  | none => none
  | some timelimit =>
    if timelimit = 0 then some TestSuite.Unsubmittable
    else
      match samples with
      | none => some (TestSuite.Simple timelimit [])
      | some (Samples.Simple cases) => some (TestSuite.Simple timelimit cases)
      | some Samples.Interactive => some (TestSuite.Interactive timelimit)

/-! ## Submissions and the restore dedup (atcoder.rs lines 239-318, 568-574) -/

structure Submission where
  task_name : String
  task_screen_name : String
  lang_name : String
  detail_url : String
  is_ac : Bool
  deriving DecidableEq, Repr

/-- `collect_urls` (atcoder.rs lines 240-250): walk the submissions of one
page in row order and record each `(task name, language name)` key's detail
URL only when the key is not yet present.  The `HashMap` is modelled as an
association list queried with `List.lookup`; insertion order is irrelevant
to the map's lookup semantics. -/
def collect_urls (detail_urls : List ((String × String) × String)) :
    List Submission → List ((String × String) × String)
  | [] => detail_urls
  | s :: rest =>
    let key := (s.task_name, s.lang_name)
    if (detail_urls.lookup key).isSome then collect_urls detail_urls rest
    else collect_urls (detail_urls ++ [(key, s.detail_url)]) rest

/-- The page walk of `Atcoder::restore` (atcoder.rs lines 258-266): page 1
is processed first, then pages `2..=num_pages` in order, feeding
`collect_urls` each time.  `pages` lists the submission rows of each page in
that order. -/
def restore_detail_urls (pages : List (List Submission)) :
    List ((String × String) × String) :=
  pages.foldl collect_urls []

/-! ## The submit workflow (atcoder.rs lines 320-429) -/

/-- Service-level errors reachable from the modelled `submit` slice
(`errors.rs` is not under `src/`; the variants and their payloads are read
off the constructor calls in atcoder.rs). -/
inductive ServiceErr where
  | NoSuchProblem : String → ServiceErr
  | ContestNotBegun : String → Int → ServiceErr
  | AlreadyAccepted : ServiceErr
  | SubmissionRejected : String → Nat → Nat → Option String → ServiceErr
  | Transport : ServiceErr
  deriving DecidableEq, Repr

/-- The anchored regex `\A/contests/[a-z0-9_\-]+/tasks/([a-z0-9_]+)/?\z$`
(atcoder.rs lines 341-342).  Neither class contains `/`, so the contest part
is the maximal run after `/contests/` and the captured task part the maximal
run after `/tasks/`, with at most one trailing slash. -/
def isContestUrlChar (c : Char) : Bool :=
  ('a' ≤ c && c ≤ 'z') || ('0' ≤ c && c ≤ '9') || c = '_' || c = '-'

def isTaskUrlChar (c : Char) : Bool :=
  ('a' ≤ c && c ≤ 'z') || ('0' ≤ c && c ≤ '9') || c = '_'

/-- Strip a literal from the front of a character list. -/
def chopLit : List Char → List Char → Option (List Char)
  | [], l => some l
  | _ :: _, [] => none
  | p :: ps, c :: cs => if p = c then chopLit ps cs else none

/-- `str::starts_with` on strings (character-list based). -/
def strStartsWith (s t : String) : Bool := (chopLit t.toList s.toList).isSome

/-- `str::ends_with` on strings (character-list based). -/
def strEndsWith (s t : String) : Bool :=
  (chopLit t.toList.reverse s.toList.reverse).isSome

/-- The task screen name captured by the `SCREEN_NAME` regex of
`Atcoder::submit`, when the task URL matches it. -/
def taskScreenName (url : String) : Option String :=
  match chopLit "/contests/".toList url.toList with
  | none => none
  | some l =>
    let contest := l.takeWhile isContestUrlChar
    if contest.isEmpty then none
    else
      match chopLit "/tasks/".toList (l.dropWhile isContestUrlChar) with
      | none => none
      | some l2 =>
        let task := l2.takeWhile isTaskUrlChar
        let rest := l2.dropWhile isTaskUrlChar
        if task.isEmpty then none
        else if rest = [] ∨ rest = ['/'] then some ⟨task⟩
        else none

/-- The `checks_if_accepted` computation (atcoder.rs lines 331-337).  The
`&&` chain is lazy: the contest status is only consulted (and
`raise_if_not_begun` only raised) when checking is not skipped and the
contest is not the practice contest.  The status of the contest is an
explicit parameter (it is scraped from the tasks page). -/
def checksIfAccepted (skip_checking_if_accepted : Bool)
    (contest : AtcoderContest) (status : ContestStatus) :
    Except ServiceErr Bool :=
  if skip_checking_if_accepted then Except.ok false
  else if contest = AtcoderContest.Practice then Except.ok false
  else
    match status with
    | ContestStatus.NotBegun s t => Except.error (ServiceErr.ContestNotBegun s t)
    | ContestStatus.Active => Except.ok true
    | ContestStatus.Finished => Except.ok false

/-- `submissions.any(|s| s.task_screen_name == task_screen_name && s.is_ac)`. -/
def anyAc (subs : List Submission) (screen : String) : Bool :=
  subs.any (fun s => s.task_screen_name = screen && s.is_ac)

/-- The duplicate-acceptance pagination scan (atcoder.rs lines 349-368):
page 1 first, then pages `2..=num_pages`. -/
def dupFound (page : Nat → List Submission) (numPages : Nat) (screen : String) :
    Bool :=
  anyAc (page 1) screen ||
    (List.range' 2 (numPages - 1)).any (fun i => anyAc (page i) screen)

/-- The outcome of executing the submission POST over the network:
either a response (status and optional `Location` header, the latter
assumed valid UTF-8) or a transport failure. -/
inductive PostOutcome where
  | response : Nat → Option String → PostOutcome
  | transportFail : PostOutcome
  deriving DecidableEq, Repr

/-- Session-level errors surfacing from `Request::send` (session.rs): the
acceptable-status gate and transport failures. -/
inductive SessionErr where
  | UnexpectedStatusCode : List Nat → Nat → SessionErr
  | ForbiddenByRobotsTxt : SessionErr
  | Transport : SessionErr
  deriving DecidableEq, Repr

/-- `ResponseExt::filter_by_status` (session.rs lines 281-288). -/
def filter_by_status (expected : List Nat) (status : Nat) :
    Except SessionErr Nat :=
  if expected.isEmpty || expected.contains status then Except.ok status
  else Except.error (SessionErr.UnexpectedStatusCode expected status)

/-- `self.post(&url).send_form(&payload)` seen from `Atcoder::submit`: the
POST's default acceptable set is `{302}` (session.rs lines 150-151) and
`submit` does not widen it, so `send` surfaces any other status as an
unexpected-status error carrying it (session.rs lines 208-220). -/
def postSendForm (outcome : PostOutcome) :
    Except SessionErr (Nat × Option String) :=
  match outcome with
  | PostOutcome.transportFail => Except.error SessionErr.Transport
  | PostOutcome.response status location =>
    match filter_by_status [302] status with
    | Except.error e => Except.error e
    | Except.ok _ => Except.ok (status, location)

/-- The response handling of the submission POST (atcoder.rs lines
386-420): an accepted response must carry a `Location` of the shape
`/contests/…/submissions/me`; any other location, a missing location, or an
unexpected status becomes `SubmissionRejected` carrying the language id,
the source length in bytes, the status and the location when present; other
errors propagate unchanged. -/
def handleSubmitResponse (lang_id source_code : String)
    (outcome : PostOutcome) : Except ServiceErr Unit :=
  let rejected := fun (status : Nat) (location : Option String) =>
    ServiceErr.SubmissionRejected lang_id source_code.utf8ByteSize status
      location
  match postSendForm outcome with
  | Except.ok (status, locationOpt) =>
    match locationOpt with
    | none => Except.error (rejected status none)
    | some location =>
      if strStartsWith location "/contests/" && strEndsWith location "/submissions/me" then
        Except.ok ()
      else Except.error (rejected status (some location))
  | Except.error (SessionErr.UnexpectedStatusCode _ status) =>
    Except.error (rejected status none)
  | Except.error _ => Except.error ServiceErr.Transport

/-- `Atcoder::submit` (atcoder.rs lines 320-429) from the tasks page on,
with the scraped artefacts as parameters: the contest status, the task
list of the tasks page, the submission-listing pages with their page count,
and the network outcome of the POST.  The returned `Bool` records whether
the submission POST was sent.  The source's `for` loop returns from its
first iteration whose task name equals the requested problem; a
screen-name regex failure `break`s to the `NoSuchProblem` error. -/
def submitModel (skip_checking_if_accepted : Bool) (contest : AtcoderContest)
    (status : ContestStatus) (tasks : List (String × String))
    (problem lang_id source_code : String)
    (page : Nat → List Submission) (numPages : Nat)
    (outcome : PostOutcome) : Except ServiceErr Unit × Bool :=
  match checksIfAccepted skip_checking_if_accepted contest status with
  | Except.error e => (Except.error e, false)
  | Except.ok checks =>
    match tasks.find? (fun t => t.1 = problem) with
    | none => (Except.error (ServiceErr.NoSuchProblem problem), false)
    | some (_, url) =>
      match taskScreenName url with
      | none => (Except.error (ServiceErr.NoSuchProblem problem), false)
      | some screen =>
        if checks && dupFound page numPages screen then
          (Except.error ServiceErr.AlreadyAccepted, false)
        else
          (handleSubmitResponse lang_id source_code outcome, true)

/-! ## Robots-exclusion compliance (session.rs lines 46-94, 162-183)

The cache `robots_txts : HashMap<String, String>` maps a host to the raw
`robots.txt` body; it is modelled as an association list.  Parsing the body
(`Robots::from_str`), selecting the rule section for the configured user
agent (`choose_section(USER_AGENT)`) and matching a path against it
(`SimpleMatcher::check_path`) live in the external `robots_txt` crate, not
in this repository; they are modelled from the spec below. -/

/-- One robots-exclusion rule: an `Allow` (`allow = true`) or `Disallow`
(`allow = false`) directive with its path value. -/
structure RobotsRule where
  allow : Bool
  path : String
  deriving DecidableEq, Repr

/-- A rule section: its `User-agent` names and its rules in file order. -/
structure RobotsSection where
  agents : List String
  rules : List RobotsRule
  deriving DecidableEq, Repr

/-- Modelled from the spec: the standard robots-exclusion path match
(`SimpleMatcher::check_path` of the external `robots_txt` crate) — the
first rule whose (nonempty) path value is a prefix of the request path
decides; with no matching rule the path is allowed.  Returns `true` when
the path is allowed. -/
def check_path (rules : List RobotsRule) (p : String) : Bool :=
  match rules.find? (fun r => ¬ r.path = "" && strStartsWith p r.path) with
  | some r => r.allow
  | none => true

/-- Split a character list at its first colon. -/
def splitColon : List Char → Option (List Char × List Char)
  | [] => none
  | c :: rest =>
    if c = ':' then some ([], rest)
    else (splitColon rest).map (fun p => (c :: p.1, p.2))

/-- Trim surrounding whitespace from a string. -/
def trimStr (s : String) : String := ⟨trimSp s.toList⟩

/-- Split a character list on newline characters (`str::lines` up to the
treatment of a trailing newline, which only adds an empty line carrying no
directive). -/
def splitOnNl : List Char → List (List Char)
  | [] => [[]]
  | c :: rest =>
    let r := splitOnNl rest
    if c = '\n' then [] :: r
    else
      match r with
      | [] => [[c]]
      | h :: t => (c :: h) :: t

/-- A robots.txt directive line: `(lowercased key, value)`. -/
def robotsDirective (line : List Char) : Option (String × String) :=
  match splitColon line with
  | none => none
  | some (k, v) => some (⟨lowerStr (trimSp k)⟩, trimStr ⟨v⟩)

/-- Modelled from the spec: `Robots::from_str` of the external `robots_txt`
crate — group the directive lines into sections, a section being a maximal
run of `User-agent` lines followed by its `Allow`/`Disallow` rules. -/
def parseRobots (txt : String) : List RobotsSection :=
  let step := fun (st : List RobotsSection × List String × List RobotsRule × Bool)
      (line : List Char) =>
    let (done, agents, rules, inRules) := st
    match robotsDirective line with
    | none => st
    | some (key, value) =>
      if key = "user-agent" then
        if inRules then (done ++ [⟨agents, rules⟩], [value], [], false)
        else (done, agents ++ [value], rules, false)
      else if key = "disallow" then (done, agents, rules ++ [⟨false, value⟩], true)
      else if key = "allow" then (done, agents, rules ++ [⟨true, value⟩], true)
      else st
  let fin := (splitOnNl txt.toList).foldl step ([], [], [], false)
  if fin.2.1 = [] ∧ fin.2.2.1 = [] then fin.1
  else fin.1 ++ [⟨fin.2.1, fin.2.2.1⟩]

/-- Modelled from the spec: `choose_section(USER_AGENT)` of the external
`robots_txt` crate, "restricted to one user-agent-specific rule section" —
the first section naming the agent exactly, else the first wildcard `*`
section, else an empty section (no restrictions). -/
def choose_section (sections : List RobotsSection) (agent : String) :
    List RobotsRule :=
  match sections.find? (fun s => s.agents.contains agent) with
  | some s => s.rules
  | none =>
    match sections.find? (fun s => s.agents.contains "*") with
    | some s => s.rules
    | none => []

/-- `HttpSession::assert_not_forbidden_by_robots_txt` (session.rs lines
172-183): URLs are modelled by their optional host and their path. -/
def assert_not_forbidden_by_robots_txt
    (robots_txts : List (String × String)) (agent : String)
    (host : Option String) (path : String) : Except SessionErr Unit :=
  match host with
  | none => Except.ok ()
  | some h =>
    match robots_txts.lookup h with
    | none => Except.ok ()
    | some txt =>
      if check_path (choose_section (parseRobots txt) agent) path then
        Except.ok ()
      else Except.error SessionErr.ForbiddenByRobotsTxt

/-- A request built by `try_request` and not yet executed: holding one of
these is the precondition for the network call `send` performs. -/
structure BuiltRequest where
  host : Option String
  path : String
  deriving DecidableEq, Repr

/-- `HttpSession::try_request` (session.rs lines 162-170): resolve the URL
(modelled as already split into host and path), run the robots gate, and
only then build the request; an error here means no request value exists,
so no network call can be attempted. -/
def try_request (robots_txts : List (String × String)) (agent : String)
    (host : Option String) (path : String) : Except SessionErr BuiltRequest :=
  match assert_not_forbidden_by_robots_txt robots_txts agent host path with
  | Except.error e => Except.error e
  | Except.ok () => Except.ok ⟨host, path⟩

/-! ## Session construction and the robots fetch (session.rs lines 46-94) -/

/-- A response to one robots fetch: status, optional `Location` header and
body text. -/
structure RobotsResponse where
  status : Nat
  location : Option String
  body : String
  deriving DecidableEq, Repr

/-- The result of `HttpSession::new`: `failed` when a robots fetch returned
a status outside the acceptable set `{200, 301, 302, 404}` (the `?` on
`send` aborts construction), `made cache` on success with the resulting
`robots_txts` cache, `fuelOut` when the redirect loop exceeded the fuel
bound (the source loop has no bound of its own). -/
inductive NewOutcome where
  | fuelOut : NewOutcome
  | failed : NewOutcome
  | made : List (String × String) → NewOutcome
  deriving DecidableEq, Repr

/-- The `while [301, 302].contains(..)` redirect loop of `HttpSession::new`
(session.rs lines 69-89): follow `Location` while redirected (returning the
session with an empty cache when a redirect carries no `Location`), then
insert the body under the base host on `200` and nothing on `404`. -/
def robotsLoop (respond : String → RobotsResponse) (host : String) :
    Nat → RobotsResponse → NewOutcome
  | fuel, res =>
    if res.status = 301 ∨ res.status = 302 then
      match fuel with
      | 0 => NewOutcome.fuelOut
      | fuel' + 1 =>
        match res.location with
        | none => NewOutcome.made []
        | some loc =>
          let res2 := respond loc
          match filter_by_status [200, 301, 302, 404] res2.status with
          | Except.error _ => NewOutcome.failed
          | Except.ok _ => robotsLoop respond host fuel' res2
    else
      if res.status = 200 then NewOutcome.made [(host, res.body)]
      else NewOutcome.made []

/-- `HttpSession::new` (session.rs lines 46-94) restricted to its robots
behaviour: with no base host the cache stays empty and nothing is fetched;
with a base host, `/robots.txt` is fetched once for that host during
construction, with acceptable statuses `{200, 301, 302, 404}`, and the
redirect loop runs.  `respond` is the network oracle. -/
def new_model (fuel : Nat) (base_host : Option String)
    (respond : String → RobotsResponse) : NewOutcome :=
  match base_host with
  | none => NewOutcome.made []
  | some host =>
    let res := respond "/robots.txt"
    match filter_by_status [200, 301, 302, 404] res.status with
    | Except.error _ => NewOutcome.failed
    | Except.ok _ => robotsLoop respond host fuel res

/-! ## Theorems -/

/-- Claim C4: for all `(now, start, end)` with `start < end`, the computed
contest status is exactly one of the three variants `NotBegun`, `Active`,
`Finished`; it is `NotBegun` iff `now < start` (carrying the start time),
`Finished` iff `now > end`, and `Active` iff `start ≤ now ≤ end`. -/
theorem contest_status_trichotomy (contest_name : String) (now s e : Int)
    (h : s < e) :
    (check_current_status contest_name now s e = ContestStatus.NotBegun contest_name s ∨
      check_current_status contest_name now s e = ContestStatus.Finished ∨
      check_current_status contest_name now s e = ContestStatus.Active) ∧
    (check_current_status contest_name now s e = ContestStatus.NotBegun contest_name s ↔ now < s) ∧
    (check_current_status contest_name now s e = ContestStatus.Finished ↔ now > e) ∧
    (check_current_status contest_name now s e = ContestStatus.Active ↔ s ≤ now ∧ now ≤ e) := by
  unfold check_current_status
  split_ifs with h1 h2
  all_goals refine ⟨?_, ?_, ?_, ?_⟩
  all_goals simp_all
  all_goals omega

/-- Closed witness for `contest_status_trichotomy`. -/
theorem contest_status_trichotomy_witness :
    ((0 : Int) < 10) ∧
    (check_current_status "x" 5 0 10 = ContestStatus.Active ↔ (0 : Int) ≤ 5 ∧ (5 : Int) ≤ 10) :=
  ⟨by decide, (contest_status_trichotomy "x" 5 0 10 (by decide)).2.2.2⟩

/-- Claim C10: an empty acceptable-status set accepts every response, and
the unexpected-status error (carrying the expected set and the actual
status) can only arise from a nonempty acceptable set that excludes the
actual status. -/
theorem filter_by_status_empty_accepts_all :
    (∀ status : Nat, filter_by_status [] status = Except.ok status) ∧
    (∀ (expected : List Nat) (status : Nat) (err : SessionErr),
      filter_by_status expected status = Except.error err →
      expected ≠ [] ∧ expected.contains status = false ∧
        err = SessionErr.UnexpectedStatusCode expected status) := by
  constructor
  · intro status
    simp [filter_by_status]
  · intro expected status err h
    unfold filter_by_status at h
    split_ifs at h with hc
    simp only [Except.error.injEq] at h
    subst h
    refine ⟨?_, ?_, rfl⟩
    · intro hnil
      subst hnil
      simp at hc
    · cases hco : expected.contains status
      · rfl
      · exact absurd (by rw [hco, Bool.or_true]) hc

/-- Closed witness for `filter_by_status_empty_accepts_all`. -/
theorem filter_by_status_empty_accepts_all_witness :
    filter_by_status [] 500 = Except.ok 500 ∧
    (([200] : List Nat) ≠ [] ∧ ([200] : List Nat).contains 404 = false ∧
      SessionErr.UnexpectedStatusCode [200] 404 = SessionErr.UnexpectedStatusCode [200] 404) :=
  ⟨filter_by_status_empty_accepts_all.1 500,
    filter_by_status_empty_accepts_all.2 [200] 404 _ (by rfl)⟩

/-- Claim C5 (corrected): timelimit parsing is exact — `"2sec"` yields
2000 ms and `"4000msec"` yields 4000 ms via the milliseconds-with-unit
path — but `"0.0001sec"` does not match the timelimit pattern (its
fractional part has four digits where the regex admits at most three), so
it yields no duration at all rather than 0.1 ms. -/
theorem timelimit_examples :
    extract_timelimit_ms "2sec" = some 2000 ∧
    extract_timelimit_ms "4000msec" = some 4000 ∧
    extract_timelimit_ns "0.0001sec" = none := by decide

/-- Counterexample to claim C5 as stated: `"0.0001sec"` yields no duration,
in particular not the claimed 0.1 ms (100000 ns). -/
theorem timelimit_examples_cex : extract_timelimit_ns "0.0001sec" = none := by
  decide

/-- Claim C6: whenever the extracted timelimit of a page resolves to a zero
duration, suite extraction returns the `Unsubmittable` classification,
regardless of the outcome of sample extraction on the same page. -/
theorem zero_timelimit_unsubmittable (text : String) (samples : Option Samples)
    (h : extract_timelimit_ms text = some 0) :
    extract_as_suite text samples = some TestSuite.Unsubmittable := by
  unfold extract_as_suite
  rw [h]
  rfl

/-- Closed witness for `zero_timelimit_unsubmittable`. -/
theorem zero_timelimit_unsubmittable_witness :
    extract_timelimit_ms "0sec" = some 0 ∧
    extract_as_suite "0sec" (some (Samples.Simple [("1\n", "2\n")])) =
      some TestSuite.Unsubmittable :=
  ⟨by decide, zero_timelimit_unsubmittable "0sec" _ (by decide)⟩

/-- Claim C2: a submission POST whose acceptable (302) response carries a
`Location` starting with `/contests/` and ending with `/submissions/me`
succeeds; a missing `Location`, a `Location` of any other shape, or a
non-redirect status each yield a submission-rejected error carrying the
language id, the byte length of the source payload, the response status,
and the unexpected location when one was present. -/
theorem submit_post_response_contract (lang_id source_code : String) :
    (∀ loc : String, strStartsWith loc "/contests/" = true →
      strEndsWith loc "/submissions/me" = true →
      handleSubmitResponse lang_id source_code (PostOutcome.response 302 (some loc)) =
        Except.ok ()) ∧
    (handleSubmitResponse lang_id source_code (PostOutcome.response 302 none) =
      Except.error (ServiceErr.SubmissionRejected lang_id source_code.utf8ByteSize 302 none)) ∧
    (∀ loc : String, (strStartsWith loc "/contests/" && strEndsWith loc "/submissions/me") = false →
      handleSubmitResponse lang_id source_code (PostOutcome.response 302 (some loc)) =
        Except.error
          (ServiceErr.SubmissionRejected lang_id source_code.utf8ByteSize 302 (some loc))) ∧
    (∀ (status : Nat) (location : Option String), status ≠ 302 →
      handleSubmitResponse lang_id source_code (PostOutcome.response status location) =
        Except.error
          (ServiceErr.SubmissionRejected lang_id source_code.utf8ByteSize status none)) := by
  refine ⟨?_, ?_, ?_, ?_⟩
  · intro loc h1 h2
    simp [handleSubmitResponse, postSendForm, filter_by_status, h1, h2]
  · simp [handleSubmitResponse, postSendForm, filter_by_status]
  · intro loc h
    simp [handleSubmitResponse, postSendForm, filter_by_status, h]
  · intro status location h
    simp [handleSubmitResponse, postSendForm, filter_by_status, h]

/-- Closed witness for `submit_post_response_contract`. -/
theorem submit_post_response_contract_witness :
    handleSubmitResponse "3003" "code" (PostOutcome.response 302 (some "/contests/abc001/submissions/me")) =
      Except.ok () ∧
    handleSubmitResponse "3003" "code" (PostOutcome.response 200 none) =
      Except.error (ServiceErr.SubmissionRejected "3003" "code".utf8ByteSize 200 none) :=
  ⟨(submit_post_response_contract "3003" "code").1 "/contests/abc001/submissions/me"
      (by decide) (by decide),
    (submit_post_response_contract "3003" "code").2.2.2 200 none (by decide)⟩

/-- `List.lookup` distributes over append, preferring the left list. -/
theorem lookup_append {α β : Type} [BEq α] (a : α) (l1 l2 : List (α × β)) :
    List.lookup a (l1 ++ l2) = (List.lookup a l1).or (List.lookup a l2) := by
  induction l1 with
  | nil => simp
  | cons p t ih =>
    cases p with
    | mk k v =>
      cases h : a == k <;> simp [List.lookup_cons, h, ih]

/-- Unfolding equation of `collect_urls` on a cons cell. -/
theorem collect_urls_cons (acc : List ((String × String) × String))
    (s : Submission) (rest : List Submission) :
    collect_urls acc (s :: rest) =
      if (acc.lookup (s.task_name, s.lang_name)).isSome then collect_urls acc rest
      else collect_urls (acc ++ [((s.task_name, s.lang_name), s.detail_url)]) rest := rfl

/-- The lookup table built by `collect_urls` answers each key with the
accumulator's entry when present, else with the first submission of the
processed list holding that key. -/
theorem lookup_collect_urls (key : String × String) :
    ∀ (l : List Submission) (acc : List ((String × String) × String)),
      (collect_urls acc l).lookup key =
        ((acc.lookup key).or
          ((l.find? (fun s => (s.task_name, s.lang_name) == key)).map
            Submission.detail_url)) := by
  intro l
  induction l with
  | nil => intro acc; simp [collect_urls]
  | cons s rest ih =>
    intro acc
    rw [collect_urls_cons]
    by_cases hkey : (s.task_name, s.lang_name) = key
    · have hpr : ((s.task_name, s.lang_name) == key) = true := by
        simp [hkey]
      by_cases hk : (acc.lookup (s.task_name, s.lang_name)).isSome
      · rw [hkey] at hk
        obtain ⟨w, hw⟩ := Option.isSome_iff_exists.mp hk
        rw [if_pos (hkey ▸ hk), ih]
        simp [List.find?_cons, hpr, hw]
      · rw [if_neg hk, ih, lookup_append]
        rw [hkey] at hk
        have hnone : acc.lookup key = none := by
          cases hres : acc.lookup key
          · rfl
          · rw [hres] at hk; simp at hk
        simp [List.find?_cons, hpr, hnone, List.lookup_cons, hkey]
    · have hpr : ((s.task_name, s.lang_name) == key) = false := by
        simp [hkey]
      by_cases hk : (acc.lookup (s.task_name, s.lang_name)).isSome
      · rw [if_pos hk, ih]
        simp [List.find?_cons, hpr]
      · rw [if_neg hk, ih, lookup_append]
        have hne : (key == (s.task_name, s.lang_name)) = false := by
          simp only [beq_eq_false_iff_ne, ne_eq]
          exact fun h => hkey h.symm
        simp [List.find?_cons, hpr, List.lookup_cons, hne]

/-- `collect_urls` processes an appended listing in two stages. -/
theorem collect_urls_append (l1 l2 : List Submission) :
    ∀ acc, collect_urls acc (l1 ++ l2) = collect_urls (collect_urls acc l1) l2 := by
  induction l1 with
  | nil => intro acc; rfl
  | cons s rest ih =>
    intro acc
    rw [List.cons_append, collect_urls_cons, collect_urls_cons]
    by_cases hk : (acc.lookup (s.task_name, s.lang_name)).isSome
    · rw [if_pos hk, if_pos hk, ih]
    · rw [if_neg hk, if_neg hk, ih]

/-- The page fold of `restore` equals one `collect_urls` pass over the
concatenation of the pages in page order. -/
theorem restore_detail_urls_eq_join (pages : List (List Submission)) :
    restore_detail_urls pages = collect_urls [] pages.flatten := by
  suffices h : ∀ acc, pages.foldl collect_urls acc = collect_urls acc pages.flatten by
    exact h []
  induction pages with
  | nil => intro acc; rfl
  | cons p ps ih =>
    intro acc
    rw [List.flatten_cons, List.foldl_cons, ih, collect_urls_append]

/-- Claim C7: the restore workflow deduplicates submissions by
`(task name, language name)` across the paginated listings in page order,
first occurrence wins: the detail URL kept for a key is that of the first
submission carrying the key in the concatenated page order; in particular
for `[(A, cpp, accepted = false)` on page 1, `(A, cpp, accepted = true)` on
page 2`]` the kept entry is the page-1 one. -/
theorem restore_dedup_first_wins :
    (∀ (pages : List (List Submission)) (key : String × String),
      (restore_detail_urls pages).lookup key =
        (pages.flatten.find? (fun s => (s.task_name, s.lang_name) == key)).map
          Submission.detail_url) ∧
    (∀ u1 u2 : String,
      (restore_detail_urls
          [[⟨"A", "a", "cpp", u1, false⟩], [⟨"A", "a", "cpp", u2, true⟩]]).lookup
        ("A", "cpp") = some u1) := by
  constructor
  · intro pages key
    rw [restore_detail_urls_eq_join, lookup_collect_urls]
    simp
  · intro u1 u2
    rfl

/-- Closed witness for `restore_dedup_first_wins`. -/
theorem restore_dedup_first_wins_witness :
    (restore_detail_urls
        [[⟨"A", "a", "cpp", "url1", false⟩], [⟨"A", "a", "cpp", "url2", true⟩]]).lookup
      ("A", "cpp") = some "url1" :=
  restore_dedup_first_wins.2 "url1" "url2"

/-- Claim C8: a request whose URL's host has a cached robots ruleset
disallowing the URL's path for the configured user agent fails with the
dedicated robots-forbidden error before any network call (no request value
is ever built), while a request whose path is allowed — such as `/public`
under a ruleset disallowing only `/sensitive` — proceeds to be sent. -/
theorem robots_gate (robots_txts : List (String × String))
    (agent host path txt : String)
    (hc : robots_txts.lookup host = some txt)
    (hd : check_path (choose_section (parseRobots txt) agent) path = false) :
    try_request robots_txts agent (some host) path =
      Except.error SessionErr.ForbiddenByRobotsTxt ∧
    try_request [("example.com", "User-agent: *\nDisallow: /sensitive")]
      "snowchains" (some "example.com") "/public" =
      Except.ok ⟨some "example.com", "/public"⟩ := by
  constructor
  · simp only [try_request, assert_not_forbidden_by_robots_txt, hc, hd]
    rfl
  · rfl

/-- Closed witness for `robots_gate`. -/
theorem robots_gate_witness :
    try_request [("example.com", "User-agent: *\nDisallow: /sensitive")]
      "snowchains" (some "example.com") "/sensitive" =
      Except.error SessionErr.ForbiddenByRobotsTxt :=
  (robots_gate [("example.com", "User-agent: *\nDisallow: /sensitive")]
    "snowchains" "example.com" "/sensitive" _ (by rfl) (by rfl)).1

/-- Every cache the construction loop can produce holds at most one entry,
keyed by the base host. -/
theorem robotsLoop_cache_shape (respond : String → RobotsResponse)
    (host : String) :
    ∀ (fuel : Nat) (res : RobotsResponse) (cache : List (String × String)),
      robotsLoop respond host fuel res = NewOutcome.made cache →
      cache = [] ∨ ∃ body, cache = [(host, body)] := by
  intro fuel
  induction fuel with
  | zero =>
    intro res cache h
    simp only [robotsLoop] at h
    split_ifs at h with h1 h2
    · cases h
      exact Or.inr ⟨res.body, rfl⟩
    · cases h
      exact Or.inl rfl
  | succ fuel ih =>
    intro res cache h
    simp only [robotsLoop] at h
    split_ifs at h with h1 h2
    · cases hloc : res.location with
      | none => rw [hloc] at h; cases h; exact Or.inl rfl
      | some loc =>
        rw [hloc] at h
        simp only at h
        cases hgate : filter_by_status [200, 301, 302, 404] (respond loc).status with
        | error e => rw [hgate] at h; cases h
        | ok st => rw [hgate] at h; exact ih (respond loc) cache h
    · cases h
      exact Or.inr ⟨res.body, rfl⟩
    · cases h
      exact Or.inl rfl

/-- Claim C9 (corrected): the `/robots.txt` fetch happens once, eagerly, at
session construction, and only for the configured base host: a `404` is
tolerated as "no restrictions" (empty cache), `301`/`302` redirects are
followed via the `Location` header, and the resulting host → ruleset cache
holds at most one entry, keyed by the base host. -/
theorem robots_fetch_on_construction :
    (∀ (fuel : Nat) (host : String) (respond : String → RobotsResponse),
      (respond "/robots.txt").status = 404 →
      new_model fuel (some host) respond = NewOutcome.made []) ∧
    (new_model 5 (some "a.example")
        (fun u => if u = "/robots.txt" then ⟨302, some "/r2", ""⟩
          else ⟨200, none, "BODY"⟩) =
      NewOutcome.made [("a.example", "BODY")]) ∧
    (∀ (fuel : Nat) (host : String) (respond : String → RobotsResponse)
        (cache : List (String × String)),
      new_model fuel (some host) respond = NewOutcome.made cache →
      cache = [] ∨ ∃ body, cache = [(host, body)]) := by
  refine ⟨?_, by rfl, ?_⟩
  · intro fuel host respond h404
    have hgate : filter_by_status [200, 301, 302, 404] 404 = Except.ok 404 := rfl
    simp only [new_model, h404, hgate]
    unfold robotsLoop
    rw [h404]
    norm_num
  · intro fuel host respond cache h
    simp only [new_model] at h
    cases hgate : filter_by_status [200, 301, 302, 404] (respond "/robots.txt").status with
    | error e => rw [hgate] at h; cases h
    | ok st =>
      rw [hgate] at h
      exact robotsLoop_cache_shape respond host fuel _ cache h

/-- Closed witness for `robots_fetch_on_construction`. -/
theorem robots_fetch_on_construction_witness :
    new_model 7 (some "a.example") (fun _ => ⟨404, none, ""⟩) =
      NewOutcome.made [] :=
  robots_fetch_on_construction.1 7 "a.example" (fun _ => ⟨404, none, ""⟩) rfl

/-- Counterexample to claim C9 as stated: the session never fetches or
caches `/robots.txt` lazily for a host first seen in a request.  A session
built for base host `a.example` (whose robots fetch returned 404) lets a
request to the never-seen host `b.example` proceed, yet its cache —
which only `HttpSession::new` ever writes — still has no entry for
`b.example` after that request. -/
theorem robots_lazy_fetch_cex :
    new_model 5 (some "a.example") (fun _ => ⟨404, none, ""⟩) =
      NewOutcome.made [] ∧
    try_request [] "snowchains" (some "b.example") "/x" =
      Except.ok ⟨some "b.example", "/x"⟩ ∧
    List.lookup "b.example" ([] : List (String × String)) = none := by
  refine ⟨rfl, rfl, rfl⟩

/-- The paginated duplicate scan reports a hit whenever any listed page
(page 1, or one of pages `2..=num_pages`) holds an accepted submission for
the screen name. -/
theorem dupFound_of_mem (page : Nat → List Submission) (numPages : Nat)
    (screen : String) (i : Nat) (s : Submission)
    (hi1 : 1 ≤ i) (hi2 : i ≤ numPages) (hmem : s ∈ page i)
    (hsn : s.task_screen_name = screen) (hac : s.is_ac = true) :
    dupFound page numPages screen = true := by
  have hany : anyAc (page i) screen = true := by
    unfold anyAc
    rw [List.any_eq_true]
    exact ⟨s, hmem, by simp [hsn, hac]⟩
  unfold dupFound
  rcases Nat.lt_or_ge i 2 with h2 | h2
  · have h1 : i = 1 := by omega
    subst h1
    rw [hany, Bool.true_or]
  · have hmemr : i ∈ List.range' 2 (numPages - 1) := by
      rw [List.mem_range']
      exact ⟨i - 2, by omega, by omega⟩
    have hr : (List.range' 2 (numPages - 1)).any (fun j => anyAc (page j) screen) = true :=
      List.any_eq_true.mpr ⟨i, hmemr, hany⟩
    rw [hr, Bool.or_true]

/-- Claim C1: with duplicate checking enabled (not skipped, contest not the
practice identity, phase active), if any page of the paginated submissions
listing holds a submission whose task screen name equals the requested
task's slug with accepted status, then submit returns the already-accepted
error and the submission POST is never sent (the second component `false`
records that no POST happened, whatever network outcome was in store). -/
theorem submit_already_accepted_guard
    (contest : AtcoderContest) (status : ContestStatus)
    (tasks : List (String × String)) (problem lang_id source_code url screen : String)
    (page : Nat → List Submission) (numPages : Nat) (outcome : PostOutcome)
    (hcontest : contest ≠ AtcoderContest.Practice)
    (hstatus : status = ContestStatus.Active)
    (htask : tasks.find? (fun t => t.1 = problem) = some (problem, url))
    (hurl : taskScreenName url = some screen)
    (hfound : ∃ i s, 1 ≤ i ∧ i ≤ numPages ∧ s ∈ page i ∧
      s.task_screen_name = screen ∧ s.is_ac = true) :
    submitModel false contest status tasks problem lang_id source_code page
      numPages outcome = (Except.error ServiceErr.AlreadyAccepted, false) := by
  obtain ⟨i, s, hi1, hi2, hmem, hsn, hac⟩ := hfound
  have hdup := dupFound_of_mem page numPages screen i s hi1 hi2 hmem hsn hac
  have hchk : checksIfAccepted false contest status = Except.ok true := by
    unfold checksIfAccepted
    rw [if_neg (by simp), if_neg hcontest, hstatus]
  simp [submitModel, hchk, htask, hurl, hdup]

/-- Closed witness for `submit_already_accepted_guard`. -/
theorem submit_already_accepted_guard_witness :
    submitModel false (AtcoderContest.Abc 1) ContestStatus.Active
      [("A", "/contests/abc001/tasks/abc001_a")] "A" "3003" "code"
      (fun _ => [⟨"A", "abc001_a", "C++14 (GCC 5.4.1)", "/submissions/1", true⟩]) 1
      (PostOutcome.response 302 none) =
      (Except.error ServiceErr.AlreadyAccepted, false) :=
  submit_already_accepted_guard (AtcoderContest.Abc 1) ContestStatus.Active
    [("A", "/contests/abc001/tasks/abc001_a")] "A" "3003" "code"
    "/contests/abc001/tasks/abc001_a" "abc001_a"
    (fun _ => [⟨"A", "abc001_a", "C++14 (GCC 5.4.1)", "/submissions/1", true⟩]) 1
    (PostOutcome.response 302 none)
    (by decide) rfl (by rfl) (by rfl)
    ⟨1, ⟨"A", "abc001_a", "C++14 (GCC 5.4.1)", "/submissions/1", true⟩,
      le_refl 1, le_refl 1, by simp, rfl, rfl⟩

/-- Membership in `\s` (the `White_Space` property) read off the code
point. -/
theorem isSp_eq_true_iff (c : Char) : isSp c = true ↔
    ((9 ≤ c.toNat ∧ c.toNat ≤ 13) ∨ c.toNat = 32 ∨ c.toNat = 0x85 ∨
      c.toNat = 0xA0 ∨ c.toNat = 0x1680 ∨
      (0x2000 ≤ c.toNat ∧ c.toNat ≤ 0x200A) ∨ c.toNat = 0x2028 ∨
      c.toNat = 0x2029 ∨ c.toNat = 0x202F ∨ c.toNat = 0x205F ∨
      c.toNat = 0x3000) := by
  simp only [isSp, Bool.or_eq_true, Bool.and_eq_true, decide_eq_true_eq]
  tauto

/-- A word character (`[a-zA-Z_]`) is not regex whitespace. -/
theorem isSp_eq_false_of_isWordChar {c : Char} (h : isWordChar c = true) :
    isSp c = false := by
  have hn : (97 ≤ c.toNat ∧ c.toNat ≤ 122) ∨ (65 ≤ c.toNat ∧ c.toNat ≤ 90) ∨
      c.toNat = 95 := by
    simp only [isWordChar, Bool.or_eq_true, Bool.and_eq_true,
      decide_eq_true_eq] at h
    rcases h with (⟨h1, h2⟩ | ⟨h1, h2⟩) | h3
    · exact Or.inl ⟨h1, h2⟩
    · exact Or.inr (Or.inl ⟨h1, h2⟩)
    · subst h3
      exact Or.inr (Or.inr rfl)
  rw [Bool.eq_false_iff]
  intro hsp
  rw [isSp_eq_true_iff] at hsp
  omega

/-- An ASCII digit has code point `48`–`57`. -/
theorem toNat_bounds_of_isDigit {c : Char} (h : c.isDigit = true) :
    48 ≤ c.toNat ∧ c.toNat ≤ 57 := by
  simp only [Char.isDigit, Bool.and_eq_true, decide_eq_true_eq] at h
  exact ⟨h.1, h.2⟩

/-- An ASCII digit is not regex whitespace. -/
theorem isSp_eq_false_of_isDigit {c : Char} (h : c.isDigit = true) :
    isSp c = false := by
  have hn := toNat_bounds_of_isDigit h
  rw [Bool.eq_false_iff]
  intro hsp
  rw [isSp_eq_true_iff] at hsp
  omega

/-- An ASCII digit belongs to `\d` (its range heads the `Nd` table). -/
theorem isDigitNd_of_isDigit {c : Char} (h : c.isDigit = true) :
    isDigitNd c = true := by
  have hn := toNat_bounds_of_isDigit h
  rw [isDigitNd, List.any_eq_true]
  refine ⟨(0x30, 0x39), by decide, ?_⟩
  simp only [Bool.and_eq_true, decide_eq_true_eq]
  exact hn

set_option maxRecDepth 10000 in
/-- For `n ≤ 999`, `format!("{:03}", n)` renders exactly three digits whose
decimal value is `n`. -/
theorem format03_spec : ∀ n < 1000,
    ((format03 n).toList.length = 3 ∧ (format03 n).toList.all Char.isDigit = true ∧
      parseDigits (format03 n).toList = n) := by decide

/-- The contest-name regex matches a nonempty word-character run followed by
three ASCII digits, capturing the two parts. -/
theorem matchName_word_digits (p d : List Char)
    (hp : p ≠ []) (hpw : p.all isWordChar = true)
    (hd3 : d.length = 3) (hdd : d.all Char.isDigit = true) :
    matchName (p ++ d) = some (p, d) := by
  have hddNd : d.all isDigitNd = true := by
    rw [List.all_eq_true] at hdd ⊢
    exact fun x hx => isDigitNd_of_isDigit (hdd x hx)
  obtain ⟨d1, d2, d3, rfl⟩ := List.length_eq_three.mp hd3
  obtain ⟨c, p', rfl⟩ := List.exists_cons_of_ne_nil hp
  have hc : isWordChar c = true := by
    rw [List.all_cons, Bool.and_eq_true] at hpw
    exact hpw.1
  have hd3d : Char.isDigit d3 = true := by
    simp only [List.all_cons, Bool.and_eq_true] at hdd
    exact hdd.2.2.1
  have hcsp : isSp c = false := isSp_eq_false_of_isWordChar hc
  have hd3sp : isSp d3 = false := isSp_eq_false_of_isDigit hd3d
  have htrim : trimSp ((c :: p') ++ [d1, d2, d3]) = (c :: p') ++ [d1, d2, d3] := by
    unfold trimSp
    rw [List.cons_append, List.dropWhile_cons, if_neg (by simp [hcsp])]
    have hrev : (c :: (p' ++ [d1, d2, d3])).reverse =
        d3 :: (d2 :: (d1 :: (p'.reverse ++ [c]))) := by
      simp
    rw [hrev, List.dropWhile_cons, if_neg (by simp [hd3sp]), ← hrev,
      List.reverse_reverse]
  have hlen : ((c :: p') ++ [d1, d2, d3]).length = p'.length + 4 := by
    simp
  have hk : ((c :: p') ++ [d1, d2, d3]).length - 3 = (c :: p').length := by
    simp
  simp only [matchName]
  rw [htrim, hk, List.take_left, List.drop_left]
  rw [if_pos]
  refine ⟨?_, hpw, hddNd⟩
  rw [hlen]
  omega

/-- `AtcoderContest::new` returns the dedicated variant produced by the
regex-match branch whenever the regex matches. -/
theorem new_of_match (s : String) (name digits : List Char)
    (hm : matchName s.toList = some (name, digits)) (c : AtcoderContest)
    (hd : dedicatedOf name digits = some c) : AtcoderContest.new s = c := by
  simp only [AtcoderContest.new, hm, hd]

/-- An unrecognized captured word part selects no dedicated variant. -/
theorem dedicatedOf_eq_none (name digits : List Char)
    (h : recognizedName name = false) : dedicatedOf name digits = none := by
  unfold recognizedName at h
  simp only [Bool.or_eq_false_iff, decide_eq_false_iff_not] at h
  obtain ⟨⟨⟨⟨⟨⟨h1, h2⟩, h3⟩, h4⟩, h5⟩, h6⟩, h7⟩ := h
  simp only [dedicatedOf]
  rw [if_neg h1, if_neg h2, if_neg h3, if_neg h4, if_neg h5,
    if_neg (not_or.mpr ⟨h6, h7⟩)]

/-- A string of no recognized shape that is neither special fixed name
parses to the verbatim fallback. -/
theorem fallback_other (s : String)
    (hshape : recognizedShape s = false)
    (hp : s ≠ "practice") (ha : s ≠ "apg4b") :
    AtcoderContest.new s = AtcoderContest.Other s := by
  cases hm : matchName s.toList with
  | none =>
    simp only [AtcoderContest.new, hm]
    rw [if_neg hp, if_neg ha]
  | some pr =>
    obtain ⟨name, digits⟩ := pr
    unfold recognizedShape at hshape
    rw [hm] at hshape
    simp only [AtcoderContest.new, hm, dedicatedOf_eq_none name digits hshape]
    rw [if_neg hp, if_neg ha]

/-- Claim C3 (corrected): for every recognized contest-name word part
(`abc`, `arc`, `agc`, `atc`, `apc`, `chokudai_s`/`chokudais`) in any letter
case and every `n ≤ 999`, parsing the word part followed by `n` zero-padded
to three digits yields the dedicated variant carrying `n`; and every string
matching no recognized shape, other than the two fixed special names,
parses to the verbatim fallback carrying exactly the original string.  (For
`n ≥ 1000` the rendering has more than three digits, the regex cannot
match, and the string falls back verbatim — see the counterexample.) -/
theorem contest_parse_roundtrip :
    (∀ (p : List Char) (n : Nat), p ≠ [] → p.all isWordChar = true → n ≤ 999 →
      ((lowerStr p = "abc".toList →
          AtcoderContest.new ⟨p ++ (format03 n).toList⟩ = AtcoderContest.Abc n) ∧
        (lowerStr p = "arc".toList →
          AtcoderContest.new ⟨p ++ (format03 n).toList⟩ = AtcoderContest.Arc n) ∧
        (lowerStr p = "agc".toList →
          AtcoderContest.new ⟨p ++ (format03 n).toList⟩ = AtcoderContest.Agc n) ∧
        (lowerStr p = "atc".toList →
          AtcoderContest.new ⟨p ++ (format03 n).toList⟩ = AtcoderContest.Atc n) ∧
        (lowerStr p = "apc".toList →
          AtcoderContest.new ⟨p ++ (format03 n).toList⟩ = AtcoderContest.Apc n) ∧
        (lowerStr p = "chokudai_s".toList ∨ lowerStr p = "chokudais".toList →
          AtcoderContest.new ⟨p ++ (format03 n).toList⟩ = AtcoderContest.ChokudaiS n))) ∧
    (∀ s : String, recognizedShape s = false → s ≠ "practice" → s ≠ "apg4b" →
      AtcoderContest.new s = AtcoderContest.Other s) := by
  constructor
  · intro p n hp hpw hn
    have hfmt := format03_spec n (by omega)
    have hm : matchName ((⟨p ++ (format03 n).toList⟩ : String).toList) =
        some (p, (format03 n).toList) :=
      matchName_word_digits p _ hp hpw hfmt.1 hfmt.2.1
    refine ⟨?_, ?_, ?_, ?_, ?_, ?_⟩
    · intro hlow
      apply new_of_match _ _ _ hm
      simp only [dedicatedOf]
      rw [hlow, if_pos rfl, if_pos hfmt.2.1, hfmt.2.2]
    · intro hlow
      apply new_of_match _ _ _ hm
      simp only [dedicatedOf]
      rw [hlow, if_neg (by decide), if_pos rfl, if_pos hfmt.2.1, hfmt.2.2]
    · intro hlow
      apply new_of_match _ _ _ hm
      simp only [dedicatedOf]
      rw [hlow, if_neg (by decide), if_neg (by decide), if_pos rfl,
        if_pos hfmt.2.1, hfmt.2.2]
    · intro hlow
      apply new_of_match _ _ _ hm
      simp only [dedicatedOf]
      rw [hlow, if_neg (by decide), if_neg (by decide), if_neg (by decide),
        if_pos rfl, if_pos hfmt.2.1, hfmt.2.2]
    · intro hlow
      apply new_of_match _ _ _ hm
      simp only [dedicatedOf]
      rw [hlow, if_neg (by decide), if_neg (by decide), if_neg (by decide),
        if_neg (by decide), if_pos rfl, if_pos hfmt.2.1, hfmt.2.2]
    · intro hlow
      apply new_of_match _ _ _ hm
      simp only [dedicatedOf]
      rcases hlow with hlow | hlow <;>
        rw [hlow, if_neg (by decide), if_neg (by decide), if_neg (by decide),
          if_neg (by decide), if_neg (by decide), if_pos (by simp),
          if_pos hfmt.2.1, hfmt.2.2]
  · exact fallback_other

/-- Closed witness for `contest_parse_roundtrip`. -/
theorem contest_parse_roundtrip_witness :
    AtcoderContest.new ⟨"aBc".toList ++ (format03 42).toList⟩ = AtcoderContest.Abc 42 ∧
    AtcoderContest.new "hello world" = AtcoderContest.Other "hello world" :=
  ⟨(contest_parse_roundtrip.1 "aBc".toList 42 (by decide) (by decide)
      (by decide)).1 (by decide),
    contest_parse_roundtrip.2 "hello world" (by decide) (by decide) (by decide)⟩

/-- Counterexample to claim C3 as stated: at `n = 1000` the rendered number
`"1000"` has four digits, `"abc1000"` does not match the contest-name
regex, and parsing yields the verbatim fallback, not `Abc 1000`. -/
theorem contest_parse_roundtrip_cex :
    AtcoderContest.new ⟨"abc".toList ++ (format03 1000).toList⟩ =
      AtcoderContest.Other "abc1000" ∧
    AtcoderContest.new ⟨"abc".toList ++ (format03 1000).toList⟩ ≠
      AtcoderContest.Abc 1000 := by
  decide

end Snowchains
